import Mathlib

/-!
Shallow embedding of the request translation and validation layer of the
anki-mcp-server repository (deck, note and note-type services, the tool
layer and the dispatcher), together with theorems settling the stated
properties of that layer.  The upstream AnkiConnect endpoint is modelled
as an oracle; each service method is translated into a pure function that
returns its result together with the upstream calls it issues.
-/

namespace AnkiMcp

/-- Interface language detected by LanguageService (`en` or `zh`). -/
inductive Language
  | en
  | zh
deriving DecidableEq, Repr

/-- Field-name pair returned by LanguageService.getFieldNames. -/
structure FieldNames where
  front : String
  back : String
deriving DecidableEq, Repr

/-- LanguageService.getFieldNames: static (language, type) table; any type
other than "Basic" receives the Cloze field names, exactly as the source
ternary does. -/
def getFieldNames (lang : Language) (type : String) : FieldNames :=
  match lang with
  | .en => if type = "Basic" then ⟨"Front", "Back"⟩ else ⟨"Text", "Back Extra"⟩
  | .zh => if type = "Basic" then ⟨"正面", "背面"⟩ else ⟨"文字", "额外的"⟩

/-- NoteParams from interfaces/types.ts: optional properties are `Option`;
`none` models an absent key, `some ""` a key present with an empty string. -/
structure NoteParams where
  type : String
  deck : String
  front : Option String := none
  back : Option String := none
  text : Option String := none
  backExtra : Option String := none
  fields : Option (List (String × String)) := none
  tags : Option (List String) := none
deriving DecidableEq, Repr

/-- Payload of the upstream "addNote" call built by NoteService.createNote. -/
structure AnkiNote where
  deckName : String
  modelName : String
  fields : List (String × String)
  tags : List String
deriving DecidableEq, Repr

/-- A JS object literal with two computed keys: when the two keys collide the
second assignment overwrites the first while the key keeps its position. -/
def objFields (fn : FieldNames) (v1 v2 : String) : List (String × String) :=
  if fn.back = fn.front then [(fn.front, v2)] else [(fn.front, v1), (fn.back, v2)]

/-- NoteService.createNote up to (but not including) the upstream invoke:
validation and construction of the "addNote" payload.  `cfg` stands for
ConfigService.getModelName (the static model-name table). -/
def buildNote (cfg : String → Language → String) (lang : Language)
    (p : NoteParams) : Except String AnkiNote :=
  let modelName := cfg p.type lang
  let fn := getFieldNames lang p.type
  match p.fields with
  | some fs => .ok ⟨p.deck, modelName, fs, p.tags.getD []⟩
  | none =>
    if p.type = "Basic" then
      match p.front, p.back with
      | some f, some b =>
        if f = "" ∨ b = "" then .error "Basic notes require front and back content"
        else .ok ⟨p.deck, modelName, objFields fn f b, p.tags.getD []⟩
      | _, _ => .error "Basic notes require front and back content"
    else if p.type = "Cloze" then
      match p.text with
      | some t =>
        if t = "" then .error "Cloze notes require text content"
        else .ok ⟨p.deck, modelName, objFields fn t (p.backExtra.getD ""), p.tags.getD []⟩
      | none => .error "Cloze notes require text content"
    else .error "Invalid note type"

/-- Boolean success test for `Except`. -/
def exceptOk {ε α : Type} : Except ε α → Bool
  | .ok _ => true
  | .error _ => false

/-- Upstream "addNote" calls issued by one NoteService.createNote run: one
call when validation succeeds, none when it throws first. -/
def callsOf (cfg : String → Language → String) (lang : Language)
    (p : NoteParams) : List AnkiNote :=
  match buildNote cfg lang p with
  | .ok n => [n]
  | .error _ => []

/-- NoteService.createNote composed with an upstream oracle `addNote`. -/
def createNoteE (cfg : String → Language → String) (lang : Language)
    (addNote : AnkiNote → Except String Nat) (p : NoteParams) : Except String Nat :=
  match buildNote cfg lang p with
  | .error e => .error e
  | .ok n => addNote n

/-- One entry of BatchOperationResults: `{success:true, data}` or
`{success:false, error}`. -/
inductive BatchItem
  | success (id : Nat)
  | failure (msg : String)
deriving DecidableEq, Repr

/-- Whether a batch entry records a success. -/
def BatchItem.isSuccess : BatchItem → Bool
  | .success _ => true
  | .failure _ => false

/-- The entry that NoteService.batchCreateNotes pushes for one request. -/
def itemOf (create : NoteParams → Except String Nat) (p : NoteParams) : BatchItem :=
  match create p with
  | .ok id => .success id
  | .error e => .failure e

/-- NoteService.batchCreateNotes: the loop over the requests, returning the
results array together with the upstream "addNote" calls issued, in order.
On a failure with `stop` set the loop breaks, so nothing further is
processed or called. -/
def batchRun (cfg : String → Language → String) (lang : Language)
    (addNote : AnkiNote → Except String Nat) (stop : Bool) :
    List NoteParams → List BatchItem × List AnkiNote
  | [] => ([], [])
  | p :: rest =>
    match buildNote cfg lang p with
    | .error e =>
      let tail := if stop then ([], []) else batchRun cfg lang addNote stop rest
      (.failure e :: tail.1, tail.2)
    | .ok n =>
      match addNote n with
      | .ok id =>
        let tail := batchRun cfg lang addNote stop rest
        (.success id :: tail.1, n :: tail.2)
      | .error e =>
        let tail := if stop then ([], []) else batchRun cfg lang addNote stop rest
        (.failure e :: tail.1, n :: tail.2)

/-- NoteTools.batchCreateNotes forwarding `args.stopOnError` into
NoteService.batchCreateNotes, whose declared default is `false`: an omitted
flag (`none`) therefore runs with `stop = false`. -/
def batchCreateNotesTool (cfg : String → Language → String) (lang : Language)
    (addNote : AnkiNote → Except String Nat) (notes : List NoteParams)
    (stopOnError : Option Bool) : List BatchItem × List AnkiNote :=
  batchRun cfg lang addNote (stopOnError.getD false) notes

/-- Concrete model-name table used by the witnesses: the model name is the
requested type itself. -/
def cfgEx : String → Language → String := fun t _ => t

/-- Upstream oracle that accepts every note with id 42. -/
def addOk : AnkiNote → Except String Nat := fun _ => .ok 42

/-- Upstream oracle that rejects every note with a fixed message. -/
def addFail : AnkiNote → Except String Nat := fun _ => .error "Simulated upstream failure"

/-- First request of the spec batch scenario: an invalid type and no field
content, so NoteService.createNote throws before any upstream call. -/
def exInvalid : NoteParams := { type := "InvalidType", deck := "Default" }

/-- Second request of the spec batch scenario: a valid Basic note with
explicit fields. -/
def exBasic : NoteParams :=
  { type := "Basic", deck := "Default", fields := some [("Front", "Q2"), ("Back", "A2")] }

/-- Modelled from the spec: the fixed advisory suffix of the §4.5
error-message hinting.  The module implementing the hint (the legacy
McpToolHandler of mcpTools.ts, exercised by src/mcpTools.test.ts) is not
part of the src tree, so the suffix is modelled as a fixed constant. -/
def hintSuffix : String :=
  " Hint: ensure special characters in HTML or MathJax field content are correctly escaped."

/-- Whether a character sequence contains a single backslash that is not
part of a doubled backslash: doubled backslashes are consumed in pairs and
any leftover backslash triggers the hint. -/
def hasSingleBackslash : List Char → Bool
  | [] => false
  | '\\' :: '\\' :: rest => hasSingleBackslash rest
  | '\\' :: _ => true
  | _ :: rest => hasSingleBackslash rest

/-- Modelled from the spec: a field value warrants the escaping hint when it
contains an unescaped markup-significant character or a stray backslash. -/
def needsEscapingHint (s : String) : Bool :=
  s.data.contains '<' || s.data.contains '&' || hasSingleBackslash s.data

/-- Modelled from the spec: createNote with the §4.5 error-message hinting
applied when the upstream call itself fails — the fixed suffix is appended
exactly when some supplied field value warrants it. -/
def createNoteHinted (cfg : String → Language → String) (lang : Language)
    (addNote : AnkiNote → Except String Nat) (p : NoteParams) : Except String Nat :=
  match buildNote cfg lang p with
  | .error e => .error e
  | .ok n =>
    match addNote n with
    | .ok id => .ok id
    | .error m =>
      .error (if n.fields.any (fun kv => needsEscapingHint kv.2) then m ++ hintSuffix else m)

/-- Note request whose field content holds an unescaped markup character. -/
def exHintP : NoteParams :=
  { type := "Basic", deck := "Default", fields := some [("Front", "Q<1"), ("Back", "A1")] }

/-- The "addNote" payload built from `exHintP`. -/
def exHintNote : AnkiNote :=
  ⟨"Default", "Basic", [("Front", "Q<1"), ("Back", "A1")], []⟩

/-- Basic note request supplied through the legacy front/back shortcuts. -/
def exLegacy : NoteParams :=
  { type := "Basic", deck := "Default", front := some "Q", back := some "A" }

/-- Outcome of one DeckService.createDeck run: a validation failure, a
success that skipped the upstream "createDeck" call because the deck was
already listed, or a success that issued the call. -/
inductive DeckOutcome
  | invalid (msg : String)
  | okNoCreate
  | okCreated
deriving DecidableEq, Repr

/-- DeckService.createDeck over the upstream deck list returned by the
fresh "deckNames" query that DeckService.deckExists performs: an empty name
is rejected, an already-listed deck returns success without the upstream
create call, and otherwise the create call is issued. -/
def createDeck (decks : List String) (name : String) : DeckOutcome :=
  if name = "" then .invalid "Deck name is required"
  else if decks.contains name then .okNoCreate
  else .okCreated

/-- Descriptor assembled by ModelService.getNoteTypeInfo; a template is a
(name, front markup, back markup) triple. -/
structure NoteTypeInfo where
  modelName : String
  fields : List String
  templates : List (String × String × String)
  css : String
deriving DecidableEq, Repr

/-- Upstream oracle for ModelService: the responses of the "modelNames",
"modelFieldNames", "modelTemplates" and "modelStyling" actions. -/
structure ModelUp where
  modelNamesQ : Except String (List String)
  modelFieldNamesQ : String → Except String (List String)
  modelTemplatesQ : String → Except String (List (String × String × String))
  modelStylingQ : String → Except String String

/-- ModelService.getNoteTypeInfo: after the emptiness and membership
pre-checks, the three descriptor queries are all launched (Promise.all), so
the trace carries all three regardless of individual failures, and any one
failing fails the whole call with no partial descriptor. -/
def getNoteTypeInfo (up : ModelUp) (modelName : String) :
    Except String NoteTypeInfo × List String :=
  if modelName = "" then (.error "Model name is required", [])
  else
    match up.modelNamesQ with
    | .error e => (.error e, ["modelNames"])
    | .ok models =>
      if models.contains modelName then
        let trace := ["modelNames", "modelFieldNames", "modelTemplates", "modelStyling"]
        match up.modelFieldNamesQ modelName, up.modelTemplatesQ modelName,
            up.modelStylingQ modelName with
        | .ok f, .ok tp, .ok css => (.ok ⟨modelName, f, tp, css⟩, trace)
        | .error e, _, _ => (.error e, trace)
        | _, .error e, _ => (.error e, trace)
        | _, _, .error e => (.error e, trace)
      else (.error ("Note type not found: " ++ modelName), ["modelNames"])

/-- Concrete ModelService oracle used by the witnesses. -/
def upEx : ModelUp :=
  ⟨.ok ["Basic", "Cloze"],
   fun _ => .ok ["Front", "Back"],
   fun _ => .ok [("Card 1", "FrontTpl", "BackTpl")],
   fun _ => .ok ".card"⟩

/-- Arguments accepted by NoteTools.createNote (CreateNoteArgs): loosely
typed agent input with optional legacy shortcuts. -/
structure CreateNoteArgs where
  type : String
  deck : String
  fields : Option (List (String × String)) := none
  front : Option String := none
  back : Option String := none
  text : Option String := none
  backExtra : Option String := none
  tags : Option (List String) := none
deriving DecidableEq, Repr

/-- JS `key in obj` test over an assoc-list object. -/
def keyMem (fs : List (String × String)) (k : String) : Bool :=
  fs.any (fun kv => kv.1 = k)

/-- JS property assignment `obj[k] = v`: overwrites in place when the key
exists, appends otherwise. -/
def objInsert : List (String × String) → String → String → List (String × String)
  | [], k, v => [(k, v)]
  | (k0, v0) :: rest, k, v =>
    if k0 = k then (k0, v) :: rest else (k0, v0) :: objInsert rest k v

/-- JS property read `obj[k]` over an assoc-list object. -/
def lookupAssoc (fs : List (String × String)) (k : String) : Option String :=
  (fs.find? (fun kv => kv.1 = k)).map Prod.snd

/-- The legacy-front mapping step of NoteTools.createNote: executed only
when `args.front` is truthy and the descriptor has at least one field. -/
def legacyMapFront (modelFields : List String) (fields0 : List (String × String))
    (front : Option String) : List (String × String) :=
  match front with
  | some fr =>
    if fr ≠ "" ∧ 0 < modelFields.length then
      objInsert fields0 (modelFields.headD "") fr
    else fields0
  | none => fields0

/-- The legacy-back mapping step of NoteTools.createNote: executed only
when `args.back` is truthy and the descriptor has at least two fields. -/
def legacyMapBack (modelFields : List String) (fields1 : List (String × String))
    (back : Option String) : List (String × String) :=
  match back with
  | some bk =>
    if bk ≠ "" ∧ 1 < modelFields.length then
      objInsert fields1 (modelFields.getD 1 "") bk
    else fields1
  | none => fields1

/-- NoteTools.createNote given the field list of the already resolved
descriptor (modelService.getNoteTypeInfo succeeded): type and deck checks,
the required-field presence check (key presence only, before the legacy
mapping), the legacy front/back mapping, the non-emptiness check of the
resulting fields object, and the forwarding to NoteService.createNote. -/
def noteToolsCreateNote (modelFields : List String) (args : CreateNoteArgs) :
    Except String NoteParams :=
  if args.type = "" then .error "Note type is required"
  else if args.deck = "" then .error "Deck name is required"
  else
    let fields0 := args.fields.getD []
    if 0 < (modelFields.filter (fun f => !(keyMem fields0 f))).length then
      .error "Missing required fields"
    else
      let fields2 := legacyMapBack modelFields
        (legacyMapFront modelFields fields0 args.front) args.back
      if fields2.length = 0 then .error "No fields provided"
      else
        .ok { type := args.type, deck := args.deck, front := args.front,
              back := args.back, text := args.text, backExtra := args.backExtra,
              fields := some fields2, tags := args.tags }

/-- Field extraction of ToolFactory.handleTypeSpecificNoteTool: every
declared descriptor field present in the caller arguments (empty strings
included) is copied into the outgoing fields object. -/
def extractFields (modelFields : List String) (args : List (String × String)) :
    List (String × String) :=
  modelFields.foldl (fun acc f =>
    match lookupAssoc args f with
    | some v => objInsert acc f v
    | none => acc) []

/-- ToolFactory.handleTypeSpecificNoteTool: requires `deck`, extracts the
declared fields, requires the first descriptor field to be present and
non-empty (a falsy `fields[modelInfo.fields[0]]` throws), then delegates to
NoteService.createNote. -/
def handleTypeSpecificNoteTool (modelFields : List String) (modelName : String)
    (deck : String) (args : List (String × String)) (tags : Option (List String)) :
    Except String NoteParams :=
  if deck = "" then .error "Deck name is required"
  else
    let fields := extractFields modelFields args
    match modelFields with
    | [] => .error "field is required"
    | f0 :: _ =>
      if (lookupAssoc fields f0).getD "" = "" then .error (f0 ++ " field is required")
      else .ok { type := modelName, deck := deck, fields := some fields, tags := tags }

/-- A create_note request whose title field is present but empty. -/
def exEmptyTitleArgs : CreateNoteArgs :=
  { type := "Basic", deck := "Default", fields := some [("Front", ""), ("Back", "A1")] }

/-- What NoteTools.createNote forwards for `exEmptyTitleArgs`. -/
def exEmptyTitleParams : NoteParams :=
  { type := "Basic", deck := "Default", fields := some [("Front", ""), ("Back", "A1")] }

/-- The upstream payload built from `exEmptyTitleParams`. -/
def exEmptyTitleNote : AnkiNote :=
  ⟨"Default", "Basic", [("Front", ""), ("Back", "A1")], []⟩

/-- A well-formed create_note request with both fields supplied. -/
def exGoodArgs : CreateNoteArgs :=
  { type := "Basic", deck := "Default", fields := some [("Front", "Q1"), ("Back", "A1")] }

/-- What NoteTools.createNote forwards for `exGoodArgs`. -/
def exGoodParams : NoteParams :=
  { type := "Basic", deck := "Default", fields := some [("Front", "Q1"), ("Back", "A1")] }

/-- What handleTypeSpecificNoteTool forwards for a two-field request. -/
def exDynParams : NoteParams :=
  { type := "Basic", deck := "Default", fields := some [("Front", "Q1"), ("Back", "A1")] }

/-- Statically declared operation names of the ToolRouter switch. -/
def staticToolNames : List String :=
  ["list_decks", "create_deck", "create_note", "batch_create_notes", "search_notes",
   "get_note_info", "update_note", "delete_note", "list_note_types",
   "create_note_type", "get_note_type_info"]

/-- Characters matched by an unflagged JS regex dot: anything except the
four line terminators. -/
def jsDotMatches (c : Char) : Bool :=
  !(c = '\n' || c = '\r' || c = '\u2028' || c = '\u2029')

/-- The match of the ToolRouter fallback regex against an operation name:
a fixed seven-character head, a non-empty line-terminator-free middle
(captured), and a fixed five-character tail. -/
def matchCreateTypeNote (s : String) : Option (List Char) :=
  let cs := s.data
  let pre := "create_".data
  let suf := "_note".data
  if pre.length + suf.length + 1 ≤ cs.length ∧ cs.take pre.length = pre
      ∧ cs.drop (cs.length - suf.length) = suf then
    let mid := (cs.drop pre.length).take (cs.length - (pre.length + suf.length))
    if mid.all jsDotMatches then some mid else none
  else none

/-- The underscore-to-space restoration applied to the captured type name. -/
def underscoreToSpace (c : Char) : Char := if c = '_' then ' ' else c

/-- Where the ToolRouter routes one operation name. -/
inductive DispatchResult
  | toStatic (name : String)
  | toDynamic (modelName : String)
  | methodNotFound (msg : String)
deriving DecidableEq, Repr

/-- The ToolRouter call dispatch: the static switch, then the
create_<type>_note fallback with underscores restored to spaces, then the
MethodNotFound failure. -/
def dispatch (name : String) : DispatchResult :=
  if staticToolNames.contains name then .toStatic name
  else
    match matchCreateTypeNote name with
    | some mid => .toDynamic (String.mk (mid.map underscoreToSpace))
    | none => .methodNotFound ("Unknown tool: " ++ name)

/-- One upstream call issued by NoteService.updateNote. -/
inductive UpdateCall
  | updateNoteFieldsC (id : Int) (fields : List (String × String))
  | clearTagsC (notes : List Int)
  | addTagsC (notes : List Int) (tags : String)
deriving DecidableEq, Repr

/-- JS Array.prototype.join with a single-space separator. -/
def joinSpace : List String → String
  | [] => ""
  | [t] => t
  | t :: rest => t ++ " " ++ joinSpace rest

/-- NoteService.updateNote: id and fields validation, then the sequence of
upstream calls it issues — the field update, and when tags are provided the
clear-tags call followed by one add-tags call carrying the joined string. -/
def updateNote (id : Int) (fields : Option (List (String × String)))
    (tags : Option (List String)) : Except String (List UpdateCall) :=
  if id ≤ 0 then .error "Valid note ID is required"
  else
    match fields with
    | none => .error "Fields are required for update"
    | some fs =>
      if fs.length = 0 then .error "Fields are required for update"
      else
        .ok ([.updateNoteFieldsC id fs] ++
          (match tags with
           | some ts => [.clearTagsC [id], .addTagsC [id] (joinSpace ts)]
           | none => []))

/-- With `stop = false` the batch loop maps every request to its entry. -/
theorem batchRun_false_results (cfg : String → Language → String) (lang : Language)
    (addNote : AnkiNote → Except String Nat) (ps : List NoteParams) :
    (batchRun cfg lang addNote false ps).1 = ps.map (itemOf (createNoteE cfg lang addNote)) := by
  induction ps with
  | nil => rfl
  | cons p rest ih =>
    simp only [batchRun, List.map_cons]
    cases hb : buildNote cfg lang p with
    | error e => simp [itemOf, createNoteE, hb, ih]
    | ok n =>
      cases ha : addNote n with
      | ok id => simp [itemOf, createNoteE, hb, ha, ih]
      | error e => simp [itemOf, createNoteE, hb, ha, ih]

/-- C1 (counterexample): on the spec batch scenario input with
`stopOnError` omitted, the results array has length 2 (not 1) and the
upstream "addNote" IS called, because NoteService.batchCreateNotes
declares `stopOnError: boolean = false`, not `= true`. -/
theorem batch_default_scenario_counterexample :
    (batchCreateNotesTool cfgEx .en addOk [exInvalid, exBasic] none).1.length = 2
    ∧ (batchCreateNotesTool cfgEx .en addOk [exInvalid, exBasic] none).2 ≠ [] := by
  constructor
  · rfl
  · decide

/-- C1 (amended): when `stopOnError` is omitted, batchCreate behaves as if
`stopOnError = false`: every request is processed and the results array has
exactly one entry per input request. -/
theorem batch_default_is_no_stop (cfg : String → Language → String) (lang : Language)
    (addNote : AnkiNote → Except String Nat) (notes : List NoteParams) :
    batchCreateNotesTool cfg lang addNote notes none = batchRun cfg lang addNote false notes
    ∧ (batchCreateNotesTool cfg lang addNote notes none).1.length = notes.length := by
  refine ⟨rfl, ?_⟩
  show (batchRun cfg lang addNote false notes).1.length = notes.length
  rw [batchRun_false_results]
  simp

/-- C2: with `stopOnError = false`, the batch results array is exactly the
input list mapped through the per-request outcome (so it has one entry per
input, index-aligned, and every per-item failure becomes a
`{success:false, error}` entry instead of raising). -/
theorem batch_no_stop_index_aligned (cfg : String → Language → String) (lang : Language)
    (addNote : AnkiNote → Except String Nat) (ps : List NoteParams) :
    (batchRun cfg lang addNote false ps).1 = ps.map (itemOf (createNoteE cfg lang addNote))
    ∧ (batchRun cfg lang addNote false ps).1.length = ps.length := by
  refine ⟨batchRun_false_results cfg lang addNote ps, ?_⟩
  rw [batchRun_false_results]
  simp

/-- C3: with `stopOnError = true`, if every request before position i
succeeds and the request at position i fails, the batch returns exactly the
i successful entries followed by the one failure entry (i+1 entries in
total), the requests after i are absent from the results, and the upstream
"addNote" calls are exactly those of the first i+1 requests. -/
theorem batch_stop_halts_at_first_failure (cfg : String → Language → String)
    (lang : Language) (addNote : AnkiNote → Except String Nat)
    (pre : List NoteParams) (p : NoteParams) (post : List NoteParams)
    (hpre : ∀ q ∈ pre, exceptOk (createNoteE cfg lang addNote q) = true)
    (hp : exceptOk (createNoteE cfg lang addNote p) = false) :
    (batchRun cfg lang addNote true (pre ++ p :: post)).1
      = pre.map (itemOf (createNoteE cfg lang addNote))
        ++ [itemOf (createNoteE cfg lang addNote) p]
    ∧ (batchRun cfg lang addNote true (pre ++ p :: post)).1.length = pre.length + 1
    ∧ (batchRun cfg lang addNote true (pre ++ p :: post)).2
      = (pre ++ [p]).flatMap (callsOf cfg lang)
    ∧ ∀ r ∈ pre.map (itemOf (createNoteE cfg lang addNote)), r.isSuccess = true := by
  induction pre with
  | nil =>
    simp only [List.nil_append, List.map_nil, List.length_nil]
    cases hb : buildNote cfg lang p with
    | error e =>
      refine ⟨?_, ?_, ?_, by simp⟩ <;>
        simp [batchRun, hb, itemOf, createNoteE, callsOf]
    | ok n =>
      cases ha : addNote n with
      | ok id =>
        exfalso
        simp [exceptOk, createNoteE, hb, ha] at hp
      | error e =>
        refine ⟨?_, ?_, ?_, by simp⟩ <;>
          simp [batchRun, hb, ha, itemOf, createNoteE, callsOf]
  | cons q pre ih =>
    have hq : exceptOk (createNoteE cfg lang addNote q) = true := hpre q (by simp)
    have hpre' : ∀ r ∈ pre, exceptOk (createNoteE cfg lang addNote r) = true :=
      fun r hr => hpre r (by simp [hr])
    obtain ⟨h1, h2, h3, h4⟩ := ih hpre'
    cases hb : buildNote cfg lang q with
    | error e =>
      exfalso
      simp [exceptOk, createNoteE, hb] at hq
    | ok n =>
      cases ha : addNote n with
      | error e =>
        exfalso
        simp [exceptOk, createNoteE, hb, ha] at hq
      | ok id =>
        have hitem : itemOf (createNoteE cfg lang addNote) q = .success id := by
          simp [itemOf, createNoteE, hb, ha]
        refine ⟨?_, ?_, ?_, ?_⟩
        · simp only [List.cons_append, batchRun, hb, ha, List.map_cons, hitem]
          simp [h1]
        · simp only [List.cons_append, batchRun, hb, ha]
          simp [h2]
        · simp only [List.cons_append, batchRun, hb, ha, List.flatMap_cons]
          simp [h3, callsOf, hb]
        · intro r hr
          simp only [List.map_cons, List.mem_cons] at hr
          rcases hr with hr | hr
          · rw [hr, hitem]; rfl
          · exact h4 r hr

/-- Witness for C3 at a concrete input: one succeeding Basic request, then
an invalid one, then a further request that is never processed. -/
theorem batch_stop_halts_witness :
    (batchRun cfgEx .en addOk true ([exBasic] ++ exInvalid :: [exBasic])).1
      = [exBasic].map (itemOf (createNoteE cfgEx .en addOk))
        ++ [itemOf (createNoteE cfgEx .en addOk) exInvalid]
    ∧ (batchRun cfgEx .en addOk true ([exBasic] ++ exInvalid :: [exBasic])).1.length
      = [exBasic].length + 1
    ∧ (batchRun cfgEx .en addOk true ([exBasic] ++ exInvalid :: [exBasic])).2
      = ([exBasic] ++ [exInvalid]).flatMap (callsOf cfgEx .en)
    ∧ ∀ r ∈ [exBasic].map (itemOf (createNoteE cfgEx .en addOk)), r.isSuccess = true :=
  batch_stop_halts_at_first_failure cfgEx .en addOk [exBasic] exInvalid [exBasic]
    (by decide) (by decide)

/-- C4: when the upstream call fails with message m, the reported error is
m with the fixed hint suffix appended exactly when some supplied field
value contains an unescaped markup character or a stray single backslash;
otherwise it is m unchanged, with no suffix. -/
theorem create_error_hint_suffix (cfg : String → Language → String) (lang : Language)
    (addNote : AnkiNote → Except String Nat) (p : NoteParams) (n : AnkiNote) (m : String)
    (hb : buildNote cfg lang p = .ok n) (ha : addNote n = .error m) :
    ((n.fields.any (fun kv => needsEscapingHint kv.2)) = true →
      createNoteHinted cfg lang addNote p = .error (m ++ hintSuffix))
    ∧ ((n.fields.any (fun kv => needsEscapingHint kv.2)) = false →
      createNoteHinted cfg lang addNote p = .error m) := by
  constructor <;> intro h <;> simp [createNoteHinted, hb, ha, h]

/-- Witness for C4: the field value "Q<1" makes the failing create report
the upstream message followed by the fixed suffix. -/
theorem create_error_hint_witness :
    createNoteHinted cfgEx .en addFail exHintP
      = .error ("Simulated upstream failure" ++ hintSuffix) :=
  (create_error_hint_suffix cfgEx .en addFail exHintP exHintNote
    "Simulated upstream failure" rfl rfl).1 (by decide)

/-- C5: a Basic note created through the legacy front/back shortcuts with
both values non-empty yields an upstream payload whose fields map has
exactly the two locale-resolved field names as keys, front mapped to the
title field and back to the body field; when front or back is missing or
empty the create fails before any upstream "addNote" call. -/
theorem basic_legacy_front_back (cfg : String → Language → String) (lang : Language)
    (p : NoteParams) (hf : p.fields = none) (ht : p.type = "Basic") :
    (∀ f b, p.front = some f → p.back = some b → f ≠ "" → b ≠ "" →
      buildNote cfg lang p
        = .ok ⟨p.deck, cfg "Basic" lang,
            [((getFieldNames lang "Basic").front, f), ((getFieldNames lang "Basic").back, b)],
            p.tags.getD []⟩)
    ∧ ((p.front = none ∨ p.front = some "" ∨ p.back = none ∨ p.back = some "") →
      exceptOk (buildNote cfg lang p) = false ∧ callsOf cfg lang p = []) := by
  have hfn : ¬ (getFieldNames lang "Basic").back = (getFieldNames lang "Basic").front := by
    cases lang <;> decide
  constructor
  · intro f b hfr hbk hf0 hb0
    simp [buildNote, hf, ht, hfr, hbk, hf0, hb0, objFields, hfn]
  · intro h
    rcases h with h1 | h1 | h1 | h1
    · constructor <;> simp [exceptOk, callsOf, buildNote, hf, ht, h1]
    · cases hb2 : p.back with
      | none => constructor <;> simp [exceptOk, callsOf, buildNote, hf, ht, h1, hb2]
      | some b => constructor <;> simp [exceptOk, callsOf, buildNote, hf, ht, h1, hb2]
    · cases hf2 : p.front with
      | none => constructor <;> simp [exceptOk, callsOf, buildNote, hf, ht, h1, hf2]
      | some f => constructor <;> simp [exceptOk, callsOf, buildNote, hf, ht, h1, hf2]
    · cases hf2 : p.front with
      | none => constructor <;> simp [exceptOk, callsOf, buildNote, hf, ht, h1, hf2]
      | some f => constructor <;> simp [exceptOk, callsOf, buildNote, hf, ht, h1, hf2]

/-- Witness for C5 at the concrete legacy request (front "Q", back "A"),
resolved with the English locale. -/
theorem basic_legacy_witness :
    buildNote cfgEx .en exLegacy
      = .ok ⟨exLegacy.deck, cfgEx "Basic" .en,
          [((getFieldNames .en "Basic").front, "Q"), ((getFieldNames .en "Basic").back, "A")],
          exLegacy.tags.getD []⟩ :=
  (basic_legacy_front_back cfgEx .en exLegacy rfl rfl).1 "Q" "A" rfl rfl
    (by decide) (by decide)

/-- C6: deck creation is idempotent: an empty name fails with a validation
error; a name already in the upstream list succeeds without issuing the
upstream create; and once the upstream list contains the name (as it does
after a first successful create), a second create with the same name
succeeds while never issuing a second upstream create call. -/
theorem create_deck_idempotent (decks : List String) (name : String) :
    (name = "" → createDeck decks name = .invalid "Deck name is required")
    ∧ (name ≠ "" → decks.contains name = true → createDeck decks name = .okNoCreate)
    ∧ (name ≠ "" →
      (createDeck decks name = .okNoCreate ∨ createDeck decks name = .okCreated)
      ∧ ∀ decks2, decks2.contains name = true → createDeck decks2 name = .okNoCreate) := by
  refine ⟨fun h => by simp [createDeck, h],
    fun h hc => by
      have hc2 : name ∈ decks := by simpa using hc
      simp [createDeck, h, hc2], ?_⟩
  intro h
  refine ⟨?_, fun decks2 hc => by
    have hc2 : name ∈ decks2 := by simpa using hc
    simp [createDeck, h, hc2]⟩
  by_cases hc : name ∈ decks
  · left; simp [createDeck, h, hc]
  · right; simp [createDeck, h, hc]

/-- Witness for C6: with an initially empty upstream deck list, a first
create of "Default" succeeds and a second create — the list now holding the
name — succeeds without the upstream create call. -/
theorem create_deck_idempotent_witness :
    (createDeck [] "Default" = .okNoCreate ∨ createDeck [] "Default" = .okCreated)
    ∧ createDeck ["Default"] "Default" = .okNoCreate :=
  ⟨((create_deck_idempotent [] "Default").2.2 (by decide)).1,
   ((create_deck_idempotent [] "Default").2.2 (by decide)).2 ["Default"] (by decide)⟩

/-- C7: describing a note type whose name is absent from the upstream list
fails after the single "modelNames" query; for a listed name, exactly the
three descriptor queries follow, the descriptor is assembled from all three
when they succeed, and any one of them failing fails the whole call with no
descriptor returned. -/
theorem note_type_info_three_queries (up : ModelUp) (name : String)
    (models : List String) (hm : up.modelNamesQ = .ok models) (hne : name ≠ "") :
    (models.contains name = false →
      (getNoteTypeInfo up name).1 = .error ("Note type not found: " ++ name)
      ∧ (getNoteTypeInfo up name).2 = ["modelNames"])
    ∧ (models.contains name = true →
      (getNoteTypeInfo up name).2
        = ["modelNames", "modelFieldNames", "modelTemplates", "modelStyling"]
      ∧ (∀ f tp css, up.modelFieldNamesQ name = .ok f →
          up.modelTemplatesQ name = .ok tp → up.modelStylingQ name = .ok css →
          (getNoteTypeInfo up name).1 = .ok ⟨name, f, tp, css⟩)
      ∧ ((exceptOk (up.modelFieldNamesQ name) = false
          ∨ exceptOk (up.modelTemplatesQ name) = false
          ∨ exceptOk (up.modelStylingQ name) = false) →
          exceptOk (getNoteTypeInfo up name).1 = false)) := by
  constructor
  · intro hc
    have hc2 : name ∉ models := by simpa using hc
    constructor <;> simp [getNoteTypeInfo, hne, hm, hc2]
  · intro hc
    have hc2 : name ∈ models := by simpa using hc
    refine ⟨?_, ?_, ?_⟩
    · cases h1 : up.modelFieldNamesQ name with
      | error e1 => simp [getNoteTypeInfo, hne, hm, hc2, h1]
      | ok f =>
        cases h2 : up.modelTemplatesQ name with
        | error e2 => simp [getNoteTypeInfo, hne, hm, hc2, h1, h2]
        | ok tp =>
          cases h3 : up.modelStylingQ name <;>
            simp [getNoteTypeInfo, hne, hm, hc2, h1, h2, *]
    · intro f tp css h1 h2 h3
      simp [getNoteTypeInfo, hne, hm, hc2, h1, h2, h3]
    · intro h
      cases h1 : up.modelFieldNamesQ name with
      | error e1 => simp [getNoteTypeInfo, hne, hm, hc2, h1, exceptOk]
      | ok f =>
        cases h2 : up.modelTemplatesQ name with
        | error e2 => simp [getNoteTypeInfo, hne, hm, hc2, h1, h2, exceptOk]
        | ok tp =>
          cases h3 : up.modelStylingQ name with
          | error e3 => simp [getNoteTypeInfo, hne, hm, hc2, h1, h2, h3, exceptOk]
          | ok css =>
            exfalso
            rcases h with h | h | h <;> simp [h1, h2, h3, exceptOk] at h

/-- Witness for C7: the concrete oracle answers all three descriptor
queries for "Basic" and the descriptor is assembled from them. -/
theorem note_type_info_witness :
    (getNoteTypeInfo upEx "Basic").2
      = ["modelNames", "modelFieldNames", "modelTemplates", "modelStyling"]
    ∧ (getNoteTypeInfo upEx "Basic").1
      = .ok ⟨"Basic", ["Front", "Back"], [("Card 1", "FrontTpl", "BackTpl")], ".card"⟩ := by
  have h := (note_type_info_three_queries upEx "Basic" ["Basic", "Cloze"] rfl
    (by decide)).2 (by decide)
  exact ⟨h.1, h.2.1 ["Front", "Back"] [("Card 1", "FrontTpl", "BackTpl")] ".card" rfl rfl rfl⟩

/-- Key membership after a JS property assignment: the assigned key is
present and all previously present keys remain present. -/
theorem keyMem_objInsert (fs : List (String × String)) (k v f : String) :
    keyMem (objInsert fs k v) f = (keyMem fs f || decide (k = f)) := by
  induction fs with
  | nil =>
    simp only [objInsert, keyMem, List.any_cons, List.any_nil,
      Bool.or_false, Bool.false_or]
  | cons kv rest ih =>
    obtain ⟨k0, v0⟩ := kv
    by_cases hk : k0 = k
    · subst hk
      simp only [objInsert, if_pos rfl, keyMem, List.any_cons]
      cases hdf : decide (k0 = f) <;> simp [hdf]
    · simp only [objInsert, if_neg hk]
      simp only [keyMem, List.any_cons] at ih ⊢
      rw [ih, Bool.or_assoc]

/-- The legacy-front mapping step never removes a present key. -/
theorem keyMem_legacyMapFront (mf : List String) (fs : List (String × String))
    (fr : Option String) (f : String) (h : keyMem fs f = true) :
    keyMem (legacyMapFront mf fs fr) f = true := by
  cases fr with
  | none => exact h
  | some s =>
    simp only [legacyMapFront]
    split
    · simp [keyMem_objInsert, h]
    · exact h

/-- The legacy-back mapping step never removes a present key. -/
theorem keyMem_legacyMapBack (mf : List String) (fs : List (String × String))
    (bk : Option String) (f : String) (h : keyMem fs f = true) :
    keyMem (legacyMapBack mf fs bk) f = true := by
  cases bk with
  | none => exact h
  | some s =>
    simp only [legacyMapBack]
    split
    · simp [keyMem_objInsert, h]
    · exact h

/-- C8 (counterexample): a create_note request whose title field is present
but empty passes every NoteTools.createNote check, is forwarded, and the
upstream "addNote" call is issued with the empty title value — it does not
fail validation. -/
theorem create_note_empty_title_counterexample :
    noteToolsCreateNote ["Front", "Back"] exEmptyTitleArgs = .ok exEmptyTitleParams
    ∧ callsOf cfgEx .en exEmptyTitleParams = [exEmptyTitleNote]
    ∧ lookupAssoc exEmptyTitleNote.fields "Front" = some "" := by
  refine ⟨?_, ?_, ?_⟩ <;> rfl

/-- C8 (amended): when NoteTools.createNote succeeds, every field required
by the resolved descriptor is present as a key of the forwarded fields map
(values, including an empty title, are not checked on this path); on the
dynamic per-type path, success requires the descriptor's first field to be
present with a non-empty value. -/
theorem create_note_normalization_invariant :
    (∀ (modelFields : List String) (args : CreateNoteArgs) (p : NoteParams),
      noteToolsCreateNote modelFields args = .ok p →
      ∃ fs, p.fields = some fs ∧ ∀ f ∈ modelFields, keyMem fs f = true)
    ∧ (∀ (modelFields : List String) (modelName deck : String)
        (args : List (String × String)) (tags : Option (List String)) (p : NoteParams),
      handleTypeSpecificNoteTool modelFields modelName deck args tags = .ok p →
      ∃ f0 rest fs v, modelFields = f0 :: rest ∧ p.fields = some fs
        ∧ lookupAssoc fs f0 = some v ∧ v ≠ "") := by
  constructor
  · intro modelFields args p hok
    by_cases h1 : args.type = ""
    · simp [noteToolsCreateNote, h1] at hok
    by_cases h2 : args.deck = ""
    · simp [noteToolsCreateNote, h1, h2] at hok
    simp only [noteToolsCreateNote, if_neg h1, if_neg h2] at hok
    by_cases h3 : 0 < (modelFields.filter
        (fun f => !(keyMem (args.fields.getD []) f))).length
    · simp [h3] at hok
    simp only [if_neg h3] at hok
    by_cases h4 : (legacyMapBack modelFields
        (legacyMapFront modelFields (args.fields.getD []) args.front) args.back).length = 0
    · simp [h4] at hok
    simp only [if_neg h4] at hok
    injection hok with hok
    refine ⟨legacyMapBack modelFields
      (legacyMapFront modelFields (args.fields.getD []) args.front) args.back,
      by rw [← hok], ?_⟩
    intro f hf
    have hempty : (modelFields.filter (fun f => !(keyMem (args.fields.getD []) f))) = [] := by
      rcases Nat.eq_zero_or_pos (modelFields.filter
        (fun f => !(keyMem (args.fields.getD []) f))).length with h | h
      · exact List.length_eq_zero.mp h
      · exact absurd h h3
    have h0 : keyMem (args.fields.getD []) f = true := by
      have := List.filter_eq_nil_iff.mp hempty f hf
      cases hx : keyMem (args.fields.getD []) f
      · exact absurd (by simp [hx]) this
      · rfl
    exact keyMem_legacyMapBack _ _ _ _ (keyMem_legacyMapFront _ _ _ _ h0)
  · intro modelFields modelName deck args tags p hok
    by_cases hd : deck = ""
    · simp [handleTypeSpecificNoteTool, hd] at hok
    cases modelFields with
    | nil => simp [handleTypeSpecificNoteTool, hd] at hok
    | cons f0 rest =>
      simp only [handleTypeSpecificNoteTool, if_neg hd] at hok
      by_cases h5 : (lookupAssoc (extractFields (f0 :: rest) args) f0).getD "" = ""
      · simp [h5] at hok
      simp only [if_neg h5] at hok
      cases hlk : lookupAssoc (extractFields (f0 :: rest) args) f0 with
      | none => exact absurd (by simp [hlk]) h5
      | some v =>
        injection hok with hok
        refine ⟨f0, rest, extractFields (f0 :: rest) args, v, rfl, by rw [← hok], hlk, ?_⟩
        intro hv
        exact h5 (by simp [hlk, hv])

/-- Witness for C8 (amended): the static path at a two-field request with
both values supplied, and the dynamic path at the same field content. -/
theorem create_note_normalization_witness :
    (∃ fs, exGoodParams.fields = some fs ∧ ∀ f ∈ ["Front", "Back"], keyMem fs f = true)
    ∧ (∃ f0 rest fs v, (["Front", "Back"] : List String) = f0 :: rest
        ∧ exDynParams.fields = some fs ∧ lookupAssoc fs f0 = some v ∧ v ≠ "") :=
  ⟨create_note_normalization_invariant.1 ["Front", "Back"] exGoodArgs exGoodParams rfl,
   create_note_normalization_invariant.2 ["Front", "Back"] "Basic" "Default"
     [("Front", "Q1"), ("Back", "A1")] none exDynParams rfl⟩

/-- A decomposition into the fixed head, a non-empty dot-matching middle
and the fixed tail makes the fallback regex match and capture the middle. -/
theorem matchCreateTypeNote_of_decomp (s : String) (mid : List Char)
    (hd : s.data = "create_".data ++ mid ++ "_note".data)
    (hne : mid ≠ []) (hall : mid.all jsDotMatches = true) :
    matchCreateTypeNote s = some mid := by
  have hmid : 0 < mid.length := List.length_pos.mpr hne
  have hlen : s.data.length
      = "create_".data.length + mid.length + "_note".data.length := by
    rw [hd, List.length_append, List.length_append]
  have ha : "create_".data.length + "_note".data.length + 1 ≤ s.data.length := by
    omega
  have hb : s.data.take "create_".data.length = "create_".data := by
    rw [hd, List.append_assoc]; exact List.take_left _ _
  have hsub : s.data.length - "_note".data.length = ("create_".data ++ mid).length := by
    rw [List.length_append]; omega
  have hc : s.data.drop (s.data.length - "_note".data.length) = "_note".data := by
    rw [hsub]
    conv_lhs => rw [hd]
    exact List.drop_left _ _
  have hdrop : s.data.drop "create_".data.length = mid ++ "_note".data := by
    rw [hd, List.append_assoc]; exact List.drop_left _ _
  have hmid2 : s.data.length - ("create_".data.length + "_note".data.length)
      = mid.length := by omega
  have hcomputed : (s.data.drop "create_".data.length).take
      (s.data.length - ("create_".data.length + "_note".data.length)) = mid := by
    rw [hdrop, hmid2]; exact List.take_left _ _
  simp only [matchCreateTypeNote]
  rw [if_pos ⟨ha, hb, hc⟩, hcomputed, if_pos hall]

/-- A successful fallback-regex match yields the decomposition into the
fixed head, the non-empty dot-matching captured middle, and the fixed
tail. -/
theorem decomp_of_matchCreateTypeNote (s : String) (mid : List Char)
    (h : matchCreateTypeNote s = some mid) :
    s.data = "create_".data ++ mid ++ "_note".data
    ∧ mid ≠ [] ∧ mid.all jsDotMatches = true := by
  simp only [matchCreateTypeNote] at h
  by_cases hcond : "create_".data.length + "_note".data.length + 1 ≤ s.data.length
      ∧ s.data.take "create_".data.length = "create_".data
      ∧ s.data.drop (s.data.length - "_note".data.length) = "_note".data
  · rw [if_pos hcond] at h
    obtain ⟨hlen, htake, hdropsuf⟩ := hcond
    by_cases hall : ((s.data.drop "create_".data.length).take
        (s.data.length - ("create_".data.length + "_note".data.length))).all
          jsDotMatches = true
    · rw [if_pos hall] at h
      injection h with h
      subst h
      have e1 : List.drop (s.data.length - ("create_".data.length + "_note".data.length))
          (s.data.drop "create_".data.length) = "_note".data := by
        rw [List.drop_drop]
        have harith : "create_".data.length
            + (s.data.length - ("create_".data.length + "_note".data.length))
            = s.data.length - "_note".data.length := by
          omega
        rw [harith, hdropsuf]
      have e2 : s.data.drop "create_".data.length
          = (s.data.drop "create_".data.length).take
              (s.data.length - ("create_".data.length + "_note".data.length))
            ++ "_note".data := by
        conv_lhs => rw [← List.take_append_drop
          (s.data.length - ("create_".data.length + "_note".data.length))
          (s.data.drop "create_".data.length)]
        rw [e1]
      refine ⟨?_, ?_, hall⟩
      · conv_lhs =>
          rw [← List.take_append_drop "create_".data.length s.data, htake, e2]
        exact (List.append_assoc _ _ _).symm
      · have hl1 : (s.data.drop "create_".data.length).length
            = s.data.length - "create_".data.length := List.length_drop _ _
        have hl2 : ((s.data.drop "create_".data.length).take
            (s.data.length - ("create_".data.length + "_note".data.length))).length
            = min (s.data.length - ("create_".data.length + "_note".data.length))
                (s.data.length - "create_".data.length) := by
          rw [List.length_take, hl1]
        apply List.length_pos.mp
        rw [hl2]
        omega
    · rw [if_neg hall] at h
      exact absurd h (by simp)
  · rw [if_neg hcond] at h
    exact absurd h (by simp)

/-- C9: for an operation name outside the static switch, any name that
decomposes as create_<type>_note with a non-empty, line-terminator-free
type routes to the dynamic note-creation path with every underscore of
<type> restored to a space, and every other name fails with the unknown
tool (MethodNotFound) error. -/
theorem dispatch_routes (name : String)
    (hns : staticToolNames.contains name = false) :
    (∀ mid : List Char, name.data = "create_".data ++ mid ++ "_note".data →
      mid ≠ [] → mid.all jsDotMatches = true →
      dispatch name = .toDynamic (String.mk (mid.map underscoreToSpace)))
    ∧ ((¬ ∃ mid : List Char, name.data = "create_".data ++ mid ++ "_note".data
        ∧ mid ≠ [] ∧ mid.all jsDotMatches = true) →
      dispatch name = .methodNotFound ("Unknown tool: " ++ name)) := by
  have hns2 : name ∉ staticToolNames := by simpa using hns
  constructor
  · intro mid hd hne hall
    have hm := matchCreateTypeNote_of_decomp name mid hd hne hall
    simp [dispatch, hns2, hm]
  · intro hno
    cases hm : matchCreateTypeNote name with
    | some mid =>
      have hdec := decomp_of_matchCreateTypeNote name mid hm
      exact absurd ⟨mid, hdec.1, hdec.2.1, hdec.2.2⟩ hno
    | none => simp [dispatch, hns2, hm]

/-- Witness for C9: the unknown name create_My_Type_note routes to the
dynamic path for the type "My Type". -/
theorem dispatch_routes_witness :
    dispatch "create_My_Type_note"
      = .toDynamic (String.mk ("My_Type".data.map underscoreToSpace)) :=
  (dispatch_routes "create_My_Type_note" (by decide)).1 "My_Type".data
    (by decide) (by decide) (by decide)

/-- C10: updating a note with tags provided issues the field update, then
the clear-tags call, then one add-tags call whose tags argument is the
array joined into a single space-separated string — so a tag containing a
space is indistinguishable upstream from two separate tags. -/
theorem update_note_tags_joined (id : Int) (fs : List (String × String))
    (ts : List String) (hid : 0 < id) (hfs : fs ≠ []) :
    updateNote id (some fs) (some ts)
      = .ok [.updateNoteFieldsC id fs, .clearTagsC [id], .addTagsC [id] (joinSpace ts)]
    ∧ ∀ t1 t2 : String, joinSpace [t1 ++ " " ++ t2] = joinSpace [t1, t2] := by
  constructor
  · have h1 : ¬ id ≤ 0 := by omega
    have h2 : ¬ fs.length = 0 := by simpa using hfs
    simp [updateNote, h1, h2]
  · intro t1 t2
    rfl

/-- Witness for C10 at note id 1 with the tag array ["a b", "c"]. -/
theorem update_note_tags_joined_witness :
    updateNote 1 (some [("Front", "X")]) (some ["a b", "c"])
      = .ok [.updateNoteFieldsC 1 [("Front", "X")], .clearTagsC [1],
          .addTagsC [1] (joinSpace ["a b", "c"])]
    ∧ ∀ t1 t2 : String, joinSpace [t1 ++ " " ++ t2] = joinSpace [t1, t2] :=
  update_note_tags_joined 1 [("Front", "X")] ["a b", "c"] (by decide) (by decide)

end AnkiMcp
